import Mathlib

/-!
The programs of k8s-utils: job-watcher-controller and check-pod-pvc

A shallow embedding of the two programs of the repository.

* `JobWatcher` embeds `job-watcher-controller/main.go`: the reconciler
  `JobReconciler.Reconcile` and the event filter installed by
  `JobReconciler.SetupWithManager`.  The cluster API client, the clock and the
  regular-expression matcher are external: they are parameters of the model.
  Every client call made by `Reconcile` is recorded, with its outcome, in a
  trace, and the client state is threaded explicitly.
* `CheckPodPvc` embeds `check-pod-pvc/main.go`: the `main` function, as a
  function from the environment it reads to the process outcome.
-/

namespace JobWatcher

/-! ## Data model -/

/-- Wall-clock instants (`time.Time` without a monotonic reading), as a count
of nanoseconds.  `a.Before(b)` is `a < b`. -/
abbrev Time := Int

/-- The map type `map[string]string` of Go; `none` is the nil map.  A lookup
returns the first binding of the key. -/
abbrev StringMap := Option (List (String × String))

/-- The identity `types.NamespacedName` of an object. -/
structure NamespacedName where
  Namespace : String
  Name : String
deriving DecidableEq, Repr

/-- Rendering of a key by `NamespacedName.String()`. -/
def NamespacedName.toString (k : NamespacedName) : String :=
  k.Namespace ++ "/" ++ k.Name

/-- Errors returned by the cluster API client.  Only the distinction between a
not-found error and any other error is observed by the program. -/
inductive ApiError where
  | notFound (msg : String)
  | other (msg : String)
deriving DecidableEq, Repr

/-- The test `apierrors.IsNotFound`. -/
def IsNotFound : ApiError → Bool
  | .notFound _ => true
  | .other _ => false

/-- The function `client.IgnoreNotFound`: nil for a not-found error, the error
itself otherwise. -/
def IgnoreNotFound : Option ApiError → Option ApiError
  | none => none
  | some e => if IsNotFound e then none else some e

/-- One entry of `job.Status.Conditions`. -/
structure JobCondition where
  type : String
  status : String
deriving DecidableEq, Repr

/-- The constant `batchv1.JobComplete`. -/
def JobComplete : String := "Complete"

/-- The constant `corev1.ConditionTrue`. -/
def ConditionTrue : String := "True"

/-- The fields of `batchv1.Job` read or written by the controller. -/
structure Job where
  Namespace : String
  Name : String
  Annotations : StringMap
  CreationTimestamp : Time
  Conditions : List JobCondition
deriving DecidableEq, Repr

/-- The fields of `appsv1.Deployment` that matter to the controller:
identity and the annotations of the pod template
(`spec.template.metadata.annotations`). -/
structure Deployment where
  Namespace : String
  Name : String
  TemplateAnnotations : StringMap
deriving DecidableEq, Repr

/-- The key under which a job is stored. -/
def Job.key (j : Job) : NamespacedName := ⟨j.Namespace, j.Name⟩

/-- The key under which a deployment is stored. -/
def Deployment.key (d : Deployment) : NamespacedName := ⟨d.Namespace, d.Name⟩

/-- The type `ctrl.Result`; the empty result `ctrl.Result{}` requests no
requeue. -/
structure Result where
  Requeue : Bool := false
  RequeueAfter : Int := 0
deriving DecidableEq, Repr

/-- The patch types of `k8s.io/apimachinery/pkg/types`. -/
inductive PatchType where
  | JSONPatchType
  | MergePatchType
  | StrategicMergePatchType
  | ApplyPatchType
deriving DecidableEq, Repr

/-- The value built by `client.RawPatch(patchType, data)`. -/
structure RawPatch where
  patchType : PatchType
  data : String
deriving DecidableEq, Repr

/-- One call on the cluster API client, with the error it returned (`none`
is a nil error).  A patch call records the object it was issued on. -/
inductive Call where
  | getJob (key : NamespacedName) (err : Option ApiError)
  | getDeployment (key : NamespacedName) (err : Option ApiError)
  | patchDeployment (obj : Deployment) (patch : RawPatch) (err : Option ApiError)
  | patchJob (obj : Job) (patch : RawPatch) (err : Option ApiError)
deriving DecidableEq, Repr

/-- Whether a call is a patch (a mutation) of some object. -/
def Call.isPatch : Call → Bool
  | .patchDeployment _ _ _ => true
  | .patchJob _ _ _ => true
  | _ => false

/-- Whether a call is a patch of a job. -/
def Call.isJobPatch : Call → Bool
  | .patchJob _ _ _ => true
  | _ => false

/-- Whether a call is a patch of a deployment that returned a nil error. -/
def Call.isSuccessfulDeploymentPatch : Call → Bool
  | .patchDeployment _ _ none => true
  | _ => false

/-- Whether a call is a fetch of a deployment. -/
def Call.isDeploymentGet : Call → Bool
  | .getDeployment _ _ => true
  | _ => false

/-- Severity of a log line. -/
inductive LogLevel where
  | info
  | error
deriving DecidableEq, Repr

/-- A line written through the logger of the reconcile context. -/
structure LogEntry where
  level : LogLevel
  err : Option ApiError
  msg : String
  keysAndValues : List (String × String)
deriving DecidableEq, Repr

/-- The external world of the controller, over a state `σ` that the calls may
change: the four client operations the reconciler uses, the clock read by
`time.Now()` and the formatter `Time.Format(time.RFC3339)`. -/
structure World (σ : Type) where
  GetJob : σ → NamespacedName → Except ApiError Job × σ
  GetDeployment : σ → NamespacedName → Except ApiError Deployment × σ
  PatchDeployment : σ → Deployment → RawPatch → Option ApiError × σ
  PatchJob : σ → Job → RawPatch → Option ApiError × σ
  Now : σ → Time
  FormatRFC3339 : Time → String

/-- The configuration held by `JobReconciler`.  `JobNameRegex` is the compiled
pattern, represented by its `MatchString` method. -/
structure JobReconciler where
  MonitoredNamespace : String
  TargetDeploymentName : String
  JobNameRegex : String → Bool

/-- What one invocation of `Reconcile` produces: the returned pair, the client
calls in the order they were made, the log lines, and the final state. -/
structure Outcome (σ : Type) where
  result : Result
  err : Option ApiError
  calls : List Call
  logs : List LogEntry
  state : σ

/-- The patch calls of an invocation, in the order they were issued. -/
def Outcome.patches {σ : Type} (o : Outcome σ) : List Call :=
  o.calls.filter Call.isPatch

/-- The value of an annotation of a job: a read of the Go map, `none` when
the map is nil or has no such key. -/
def Job.annotationOf (j : Job) (k : String) : Option String :=
  match j.Annotations with
  | none => none
  | some m => m.lookup k

/-! ## The reconciler -/

/-- The annotation key of the processed marker. -/
def processedKey : String := "job-watcher/processed"

/-- The annotation key of the restart trigger. -/
def restartedAtKey : String := "kubectl.kubernetes.io/restartedAt"

/-- The guard of lines 43-48: the annotation map is non-nil, holds the key
`job-watcher/processed`, and its value is `"true"`. -/
def alreadyProcessed (job : Job) : Bool :=
  match job.Annotations with
  | none => false
  | some m =>
    match m.lookup processedKey with
    | some processed => processed == "true"
    | none => false

/-- The loop of lines 55-61 over `job.Status.Conditions`: `jobCompleted`
becomes true at the first condition of type Complete with status True. -/
def jobCompleted : List JobCondition → Bool
  | [] => false
  | cond :: rest =>
    if cond.type = JobComplete ∧ cond.status = ConditionTrue then true
    else jobCompleted rest

/-- The body of the deployment patch, line 79: the format string with the
formatted time substituted for `%s`. -/
def restartPatchData (restartedAt : String) : String :=
  "\x7b\"spec\":\x7b\"template\":\x7b\"metadata\":\x7b\"annotations\":\x7b\"kubectl.kubernetes.io/restartedAt\":\""
    ++ restartedAt ++ "\"\x7d\x7d\x7d\x7d\x7d"

/-- The body of the job patch, line 87. -/
def jobPatchData : String :=
  "\x7b\"metadata\":\x7b\"annotations\":\x7b\"job-watcher/processed\":\"true\"\x7d\x7d\x7d"

/-- The method `JobReconciler.Reconcile`, with the package variable
`startupTime` as a parameter. -/
def Reconcile {σ : Type} (w : World σ) (startupTime : Time) (r : JobReconciler)
    (s : σ) (req : NamespacedName) : Outcome σ :=
  match w.GetJob s req with
  | (.error err, s1) =>
    { result := {}, err := IgnoreNotFound (some err),
      calls := [.getJob req (some err)], logs := [], state := s1 }
  | (.ok job, s1) =>
    if alreadyProcessed job then
      { result := {}, err := none,
        calls := [.getJob req none],
        logs := [⟨.info, none, "Job already processed, ignoring", [("job", req.toString)]⟩],
        state := s1 }
    else if !r.JobNameRegex job.Name then
      { result := {}, err := none,
        calls := [.getJob req none],
        logs := [⟨.info, none, "Job name does not match pattern, ignoring",
                  [("job", req.toString)]⟩],
        state := s1 }
    else if !jobCompleted job.Conditions then
      { result := {}, err := none,
        calls := [.getJob req none], logs := [], state := s1 }
    else if job.CreationTimestamp < startupTime then
      { result := {}, err := none,
        calls := [.getJob req none],
        logs := [⟨.info, none, "Ignoring job created before controller startup",
                  [("job", req.toString)]⟩],
        state := s1 }
    else
      let target : NamespacedName := ⟨r.MonitoredNamespace, r.TargetDeploymentName⟩
      match w.GetDeployment s1 target with
      | (.error err, s2) =>
        { result := {}, err := some err,
          calls := [.getJob req none, .getDeployment target (some err)],
          logs := [⟨.error, some err, "Failed to get target deployment",
                    [("deployment", r.TargetDeploymentName),
                     ("namespace", r.MonitoredNamespace)]⟩],
          state := s2 }
      | (.ok deployment, s2) =>
        let patch : RawPatch :=
          ⟨.MergePatchType, restartPatchData (w.FormatRFC3339 (w.Now s2))⟩
        match w.PatchDeployment s2 deployment patch with
        | (some err, s3) =>
          { result := {}, err := some err,
            calls := [.getJob req none, .getDeployment target none,
                      .patchDeployment deployment patch (some err)],
            logs := [⟨.error, some err, "Failed to patch target deployment",
                      [("deployment", r.TargetDeploymentName),
                       ("namespace", r.MonitoredNamespace)]⟩],
            state := s3 }
        | (none, s3) =>
          let jobPatch : RawPatch := ⟨.MergePatchType, jobPatchData⟩
          match w.PatchJob s3 job jobPatch with
          | (some err, s4) =>
            { result := {}, err := some err,
              calls := [.getJob req none, .getDeployment target none,
                        .patchDeployment deployment patch none,
                        .patchJob job jobPatch (some err)],
              logs := [⟨.error, some err, "Failed to mark job as processed",
                        [("job", req.toString)]⟩],
              state := s4 }
          | (none, s4) =>
            { result := {}, err := none,
              calls := [.getJob req none, .getDeployment target none,
                        .patchDeployment deployment patch none,
                        .patchJob job jobPatch none],
              logs := [⟨.info, none, "Target deployment restarted due to job completion",
                        [("deployment", r.TargetDeploymentName),
                         ("namespace", r.MonitoredNamespace)]⟩],
              state := s4 }

/-- Scans a trace from left to right: every patch of a job must come after a
patch of a deployment that returned a nil error.  `seen` tells whether such a
patch was met already. -/
def markerGuarded (seen : Bool) : List Call → Bool
  | [] => true
  | c :: cs =>
    if c.isJobPatch then seen && markerGuarded seen cs
    else markerGuarded (seen || c.isSuccessfulDeploymentPatch) cs

/-! ## The event filter of `SetupWithManager` -/

/-- The function passed to `predicate.NewPredicateFuncs` at line 101. -/
def eventFilter (r : JobReconciler) (obj : Job) : Bool :=
  decide (obj.Namespace = r.MonitoredNamespace) && r.JobNameRegex obj.Name

/-- The four kinds of watch event of controller-runtime. -/
inductive Event where
  | create (object : Job)
  | update (objectOld objectNew : Job)
  | delete (object : Job)
  | generic (object : Job)
deriving DecidableEq, Repr

/-- The library function `predicate.NewPredicateFuncs`: the filter is applied
to the object of a create, delete or generic event and to the new object of an
update event. -/
def NewPredicateFuncs (filter : Job → Bool) : Event → Bool
  | .create object => filter object
  | .update _ objectNew => filter objectNew
  | .delete object => filter object
  | .generic object => filter object

/-- The object whose key an event enqueues (`handler.EnqueueRequestForObject`). -/
def Event.object : Event → Job
  | .create object => object
  | .update _ objectNew => objectNew
  | .delete object => object
  | .generic object => object

/-- The keys an event adds to the work queue of the controller built by
`SetupWithManager`: the key of the event's object when the event filter admits
the event, nothing otherwise. -/
def enqueued (r : JobReconciler) (e : Event) : List NamespacedName :=
  if NewPredicateFuncs (eventFilter r) e then [e.object.key] else []

/-! ## An explicit cluster state

A model of the API server behind the client: it stores jobs and deployments
and applies JSON merge patches to their annotations.  Patch bodies are decoded
by a parser for the fragment of JSON made of objects and strings without
escape sequences, which is the fragment the controller emits. -/

/-- JSON documents made of strings and objects. -/
inductive Json where
  | str (s : String)
  | obj (members : List (String × Json))

/-- The double quote. -/
def quoteChar : Char := Char.ofNat 34

/-- The backslash. -/
def backslashChar : Char := Char.ofNat 92

/-- The opening brace. -/
def openBrace : Char := Char.ofNat 123

/-- The closing brace. -/
def closeBrace : Char := Char.ofNat 125

/-- The colon. -/
def colonChar : Char := Char.ofNat 58

/-- The comma. -/
def commaChar : Char := Char.ofNat 44

/-- Reads the characters of a string literal after its opening quote, up to
the closing quote; returns them with the input that follows.  Escape sequences
and control characters are rejected. -/
def parseChars : List Char → Option (List Char × List Char)
  | [] => none
  | c :: cs =>
    if c = quoteChar then some ([], cs)
    else if c = backslashChar ∨ c.toNat < 32 then none
    else
      match parseChars cs with
      | some (str, rest) => some (c :: str, rest)
      | none => none

mutual
/-- Reads one JSON value: a string literal or an object. -/
def parseValue : Nat → List Char → Option (Json × List Char)
  | 0, _ => none
  | _, [] => none
  | fuel + 1, c :: cs =>
    if c = quoteChar then
      match parseChars cs with
      | some (str, rest) => some (.str (String.mk str), rest)
      | none => none
    else if c = openBrace then
      match cs with
      | d :: ds =>
        if d = closeBrace then some (.obj [], ds)
        else
          match parseMembers fuel cs with
          | some (ms, rest) => some (.obj ms, rest)
          | none => none
      | [] => none
    else none
/-- Reads the members of a non-empty object, up to its closing brace. -/
def parseMembers : Nat → List Char → Option (List (String × Json) × List Char)
  | 0, _ => none
  | _, [] => none
  | fuel + 1, c :: cs =>
    if c = quoteChar then
      match parseChars cs with
      | some (key, d :: ds) =>
        if d = colonChar then
          match parseValue fuel ds with
          | some (v, e :: es) =>
            if e = commaChar then
              match parseMembers fuel es with
              | some (ms, rest) => some ((String.mk key, v) :: ms, rest)
              | none => none
            else if e = closeBrace then some ([(String.mk key, v)], es)
            else none
          | _ => none
        else none
      | _ => none
    else none
end

/-- Decodes a patch body: the whole input must be one JSON value.  The fuel is
the length of the input, which bounds the number of values in it. -/
def decode (data : String) : Option Json :=
  match parseValue data.length data.data with
  | some (doc, []) => some doc
  | _ => none

/-- The member of an object under a key. -/
def Json.member (k : String) : Json → Option Json
  | .obj ms => ms.lookup k
  | .str _ => none

/-- The value reached by following a path of keys. -/
def Json.path : List String → Json → Option Json
  | [], doc => some doc
  | k :: ks, doc =>
    match doc.member k with
    | some v => Json.path ks v
    | none => none

/-- Sets one key of a map, replacing an existing binding. -/
def StringMap.set (m : StringMap) (k v : String) : StringMap :=
  some ((k, v) :: (m.getD []).filter (fun p => p.1 ≠ k))

/-- Merges the members of a patch object into a map: every string member
sets its key, and the keys the patch does not name are kept. -/
def mergeAnnotations : List (String × Json) → StringMap → StringMap
  | [], m => m
  | (k, .str v) :: ms, m => mergeAnnotations ms (StringMap.set m k v)
  | (_, .obj _) :: ms, m => mergeAnnotations ms m

/-- The effect of a merge patch on the annotation map found at a path: the
object the document holds there is merged into the map; a document that does
not reach the path leaves the map as it is. -/
def patchAnnotations (doc : Json) (path : List String) (m : StringMap) : StringMap :=
  match doc.path path with
  | some (.obj ms) => mergeAnnotations ms m
  | _ => m

/-- A merge patch applied to a job: `metadata.annotations` is merged. -/
def applyJobPatch (doc : Json) (j : Job) : Job :=
  { j with Annotations := patchAnnotations doc ["metadata", "annotations"] j.Annotations }

/-- A merge patch applied to a deployment:
`spec.template.metadata.annotations` is merged. -/
def applyDeploymentPatch (doc : Json) (d : Deployment) : Deployment :=
  let path := ["spec", "template", "metadata", "annotations"]
  { d with TemplateAnnotations := patchAnnotations doc path d.TemplateAnnotations }

/-- The state of the cluster: the stored jobs and deployments, and the
clock. -/
structure Cluster where
  jobs : List Job
  deployments : List Deployment
  clock : Time
deriving DecidableEq, Repr

/-- Fetches the job stored under a key. -/
def Cluster.getJob (c : Cluster) (key : NamespacedName) : Except ApiError Job × Cluster :=
  match c.jobs.find? (fun j => decide (j.key = key)) with
  | some j => (.ok j, c)
  | none => (.error (.notFound ("jobs \"" ++ key.Name ++ "\" not found")), c)

/-- Fetches the deployment stored under a key. -/
def Cluster.getDeployment (c : Cluster) (key : NamespacedName) :
    Except ApiError Deployment × Cluster :=
  match c.deployments.find? (fun d => decide (d.key = key)) with
  | some d => (.ok d, c)
  | none => (.error (.notFound ("deployments \"" ++ key.Name ++ "\" not found")), c)

/-- Patches the job stored under the key of `obj`: only a merge patch with a
decodable body is accepted, and the job must exist. -/
def Cluster.patchJob (c : Cluster) (obj : Job) (p : RawPatch) : Option ApiError × Cluster :=
  if p.patchType ≠ .MergePatchType then (some (.other "unsupported patch type"), c)
  else
    match decode p.data with
    | none => (some (.other "invalid patch body"), c)
    | some doc =>
      if c.jobs.any (fun j => decide (j.key = obj.key)) then
        let patched := c.jobs.map (fun j => if j.key = obj.key then applyJobPatch doc j else j)
        (none, { c with jobs := patched })
      else (some (.notFound ("jobs \"" ++ obj.Name ++ "\" not found")), c)

/-- Patches the deployment stored under the key of `obj`. -/
def Cluster.patchDeployment (c : Cluster) (obj : Deployment) (p : RawPatch) :
    Option ApiError × Cluster :=
  if p.patchType ≠ .MergePatchType then (some (.other "unsupported patch type"), c)
  else
    match decode p.data with
    | none => (some (.other "invalid patch body"), c)
    | some doc =>
      if c.deployments.any (fun d => decide (d.key = obj.key)) then
        let patched := c.deployments.map
          (fun d => if d.key = obj.key then applyDeploymentPatch doc d else d)
        (none, { c with deployments := patched })
      else (some (.notFound ("deployments \"" ++ obj.Name ++ "\" not found")), c)

/-- The world in which the client talks to an explicit cluster state. -/
def clusterWorld (format : Time → String) : World Cluster where
  GetJob := Cluster.getJob
  GetDeployment := Cluster.getDeployment
  PatchDeployment := Cluster.patchDeployment
  PatchJob := Cluster.patchJob
  Now := fun c => c.clock
  FormatRFC3339 := format

/-- The document the deployment patch encodes: one annotation of the pod
template, and nothing else. -/
def restartPatchDoc (restartedAt : String) : Json :=
  .obj [("spec", .obj [("template", .obj [("metadata", .obj [("annotations",
    .obj [(restartedAtKey, .str restartedAt)])])])])]

/-- The document the job patch encodes: one annotation of the job, and
nothing else. -/
def jobPatchDoc : Json :=
  .obj [("metadata", .obj [("annotations", .obj [(processedKey, .str "true")])])]

/-- A string that a JSON string literal can hold verbatim: no quote, no
backslash, no control character. -/
def jsonPlain (s : String) : Prop :=
  ∀ c ∈ s.data, c ≠ quoteChar ∧ c ≠ backslashChar ∧ ¬ c.toNat < 32

end JobWatcher

namespace CheckPodPvc

/-! ## The precondition checker `check-pod-pvc` -/

/-- The field `volume.PersistentVolumeClaim` of a pod volume, when set. -/
structure PersistentVolumeClaimVolumeSource where
  ClaimName : String
deriving DecidableEq, Repr

/-- One entry of `pod.Spec.Volumes`; `PersistentVolumeClaim` is a pointer,
`none` when nil. -/
structure Volume where
  Name : String
  PersistentVolumeClaim : Option PersistentVolumeClaimVolumeSource
deriving DecidableEq, Repr

/-- The fields of `corev1.Pod` read by the checker. -/
structure Pod where
  Name : String
  Phase : String
  Volumes : List Volume
deriving DecidableEq, Repr

/-- What `main` reads from outside.  Errors are kept as their text; a missing
error (`none`) is a nil error.  `ParseFlags` stands for `flag.String` followed
by `flag.Parse`: from the default of `-kubeconfig` it gives the value of the
flag, or the exit code with which flag parsing ends the process. -/
structure Env where
  HomeDir : String
  Join : List String → String
  ParseFlags : String → Except Nat String
  BuildConfigFromFlags : String → String → Option String
  NewForConfig : Option String
  Getenv : String → String
  GetNamespace : String → Option String
  GetPersistentVolumeClaim : String → String → Option String
  ListPods : String → Except String (List Pod)

/-- How the process ends: `main` returns, `os.Exit` is called, or a panic
unwinds `main`. -/
inductive Termination where
  | returned
  | exited (code : Nat)
  | panicked (msg : String)
deriving DecidableEq, Repr

/-- The exit code of the process: 0 when `main` returns, the argument of
`os.Exit`, and 2 for a panic. -/
def Termination.exitCode : Termination → Nat
  | .returned => 0
  | .exited code => code
  | .panicked _ => 2

/-- The outcome of a run: how it ended and what it wrote to standard
output. -/
structure Outcome where
  termination : Termination
  stdout : List String
deriving DecidableEq, Repr

/-- The inner loop of lines 79-85: whether some volume is backed by the
claim; the loop stops at the first such volume. -/
def volumesUseClaim (pvcName : String) : List Volume → Bool
  | [] => false
  | volume :: rest =>
    match volume.PersistentVolumeClaim with
    | some source => if source.ClaimName = pvcName then true else volumesUseClaim pvcName rest
    | none => volumesUseClaim pvcName rest

/-- The loop of lines 71-86 over `pods.Items`, from a given value of
`activePodsFound` and the lines printed so far. -/
def scanPods (pvcName currentPodName : String) :
    List Pod → Bool → List String → Bool × List String
  | [], activePodsFound, out => (activePodsFound, out)
  | pod :: rest, activePodsFound, out =>
    if pod.Name = currentPodName then scanPods pvcName currentPodName rest activePodsFound out
    else if pod.Phase ≠ "Running" ∧ pod.Phase ≠ "Pending" then
      scanPods pvcName currentPodName rest activePodsFound out
    else if volumesUseClaim pvcName pod.Volumes then
      scanPods pvcName currentPodName rest true (out ++ [pod.Name ++ "\n"])
    else scanPods pvcName currentPodName rest activePodsFound out

/-- The value of an environment variable, or a default when it is empty. -/
def getenvOr (env : Env) (name default : String) : String :=
  if env.Getenv name = "" then default else env.Getenv name

/-- The default of the `-kubeconfig` flag, lines 18-22. -/
def kubeconfigDefault (env : Env) : String :=
  if env.HomeDir ≠ "" then env.Join [env.HomeDir, ".kube", "config"] else ""

/-- The function `main` of `check-pod-pvc/main.go`. -/
def main (env : Env) : Outcome :=
  match env.ParseFlags (kubeconfigDefault env) with
  | .error code => ⟨.exited code, []⟩
  | .ok kubeconfig =>
    match env.BuildConfigFromFlags "" kubeconfig with
    | some err => ⟨.panicked err, []⟩
    | none =>
      match env.NewForConfig with
      | some err => ⟨.panicked err, []⟩
      | none =>
        let namespace_ := getenvOr env "PVC_NAMESPACE" "default-namespace"
        let pvcName := getenvOr env "PVC_NAME" "default-app-pvc"
        let currentPodName := env.Getenv "CURRENT_POD_NAME"
        match env.GetNamespace namespace_ with
        | some err =>
          ⟨.exited 1,
            ["Error: Namespace " ++ namespace_ ++ " does not exist. " ++ err ++ "\n"]⟩
        | none =>
          match env.GetPersistentVolumeClaim namespace_ pvcName with
          | some err =>
            ⟨.exited 1,
              ["Error: PVC " ++ pvcName ++ " does not exist in namespace " ++ namespace_
                ++ ". " ++ err ++ "\n"]⟩
          | none =>
            match env.ListPods namespace_ with
            | .error err => ⟨.panicked err, []⟩
            | .ok pods =>
              let header :=
                "Checking for pods actively using " ++ pvcName ++ ", excluding current pod "
                  ++ currentPodName ++ ":\n"
              match scanPods pvcName currentPodName pods false [header] with
              | (true, out) =>
                ⟨.exited 1,
                  out ++ ["Error: active pods found using PVC. Exiting to prevent job start...\n"]⟩
              | (false, out) =>
                ⟨.returned, out ++ ["No active pods found using PVC. Proceeding with job...\n"]⟩

/-- The namespace the checker inspects. -/
def checkedNamespace (env : Env) : String :=
  getenvOr env "PVC_NAMESPACE" "default-namespace"

/-- The claim the checker inspects. -/
def checkedClaim (env : Env) : String :=
  getenvOr env "PVC_NAME" "default-app-pvc"

/-- The name of the pod that runs the checker, excluded from the scan. -/
def currentPod (env : Env) : String :=
  env.Getenv "CURRENT_POD_NAME"

/-- An environment in which everything exists and the pods are given. -/
def envWith (current : String) (pods : List Pod) : Env where
  HomeDir := "/root"
  Join := fun parts => "/".intercalate parts
  ParseFlags := fun dflt => .ok dflt
  BuildConfigFromFlags := fun _ _ => none
  NewForConfig := none
  Getenv := fun name => if name = "CURRENT_POD_NAME" then current else ""
  GetNamespace := fun _ => none
  GetPersistentVolumeClaim := fun _ _ => none
  ListPods := fun _ => .ok pods

/-- A running pod that mounts the default claim. -/
def mountingPod : Pod :=
  ⟨"app-0", "Running", [⟨"config", none⟩, ⟨"data", some ⟨"default-app-pvc"⟩⟩]⟩

/-- A finished pod that mounted the default claim. -/
def finishedPod : Pod :=
  ⟨"app-old", "Succeeded", [⟨"data", some ⟨"default-app-pvc"⟩⟩]⟩

/-- The pod of the caller, which mounts the default claim itself. -/
def callerPod : Pod :=
  ⟨"job-1", "Running", [⟨"data", some ⟨"default-app-pvc"⟩⟩]⟩

end CheckPodPvc

/-! ## Concrete inputs -/

namespace JobWatcher

/-- The default configuration of `main`, with a matcher for the default
pattern `^dev-job-.+$`. -/
def devReconciler : JobReconciler where
  MonitoredNamespace := "dev-namespace"
  TargetDeploymentName := "dev-deployment"
  JobNameRegex := fun name =>
    "dev-job-".data.isPrefixOf name.data && decide (8 < name.data.length)
      && (name.data.drop 8).all (fun c => decide (c ≠ Char.ofNat 10))

/-- A formatter that prints every instant as the same RFC3339 text. -/
def fixedFormat : Time → String := fun _ => "2024-05-01T12:00:00Z"

/-- The key of the job `dev-job-42`. -/
def devJobKey : NamespacedName := ⟨"dev-namespace", "dev-job-42"⟩

/-- A completed job created after startup, not yet marked. -/
def devJob : Job where
  Namespace := "dev-namespace"
  Name := "dev-job-42"
  Annotations := none
  CreationTimestamp := 10
  Conditions := [⟨"Complete", "True"⟩]

/-- The same job carrying the processed marker. -/
def devJobProcessed : Job :=
  { devJob with Annotations := some [("job-watcher/processed", "true")] }

/-- The same job while it is still running or after it failed. -/
def devJobUnfinished : Job :=
  { devJob with Conditions := [⟨"Complete", "False"⟩, ⟨"Failed", "True"⟩] }

/-- The target deployment. -/
def devDeployment : Deployment where
  Namespace := "dev-namespace"
  Name := "dev-deployment"
  TemplateAnnotations := none

/-- A formatter whose output breaks the patch body: a lone double quote. -/
def brokenFormat : Time → String := fun _ => "\""

/-- A job of another namespace with a name outside the pattern. -/
def prodJob : Job where
  Namespace := "prod-namespace"
  Name := "prod-job-1"
  Annotations := none
  CreationTimestamp := 10
  Conditions := [⟨"Complete", "True"⟩]

/-- A cluster holding the completed job and the target deployment. -/
def devCluster : Cluster := ⟨[devJob], [devDeployment], 40⟩

/-- The target deployment after a restart patch stamped with the text of
`fixedFormat`. -/
def devDeploymentRestarted : Deployment where
  Namespace := "dev-namespace"
  Name := "dev-deployment"
  TemplateAnnotations := some [("kubectl.kubernetes.io/restartedAt", "2024-05-01T12:00:00Z")]

/-- The cluster `devCluster` once the deployment carries the restart stamp and
the job carries the processed marker. -/
def restartedCluster : Cluster := ⟨[devJobProcessed], [devDeploymentRestarted], 40⟩

/-- A cluster holding the completed job and no deployment. -/
def clusterWithoutTarget : Cluster := ⟨[devJob], [], 40⟩

/-- A cluster holding neither the job nor the deployment. -/
def emptyCluster : Cluster := ⟨[], [], 40⟩

/-- A cluster in which the job is already marked. -/
def processedCluster : Cluster := ⟨[devJobProcessed], [devDeployment], 40⟩

/-- A cluster in which the job has not completed. -/
def unfinishedCluster : Cluster := ⟨[devJobUnfinished], [devDeployment], 40⟩

end JobWatcher

/-! ## Properties of the reconciler -/

namespace JobWatcher

theorem jobCompleted_iff (conds : List JobCondition) :
    jobCompleted conds = true ↔
      ∃ cond ∈ conds, cond.type = "Complete" ∧ cond.status = "True" := by
  induction conds with
  | nil => simp [jobCompleted]
  | cons c cs ih =>
    by_cases h : c.type = JobComplete ∧ c.status = ConditionTrue
    · simp only [jobCompleted, h, and_self, if_true, true_iff]
      exact ⟨c, List.mem_cons_self _ _, h⟩
    · simp only [jobCompleted, h, if_false, ih, List.mem_cons, exists_eq_or_imp]
      constructor
      · intro hx
        exact Or.inr hx
      · rintro (hx | hx)
        · exact absurd hx h
        · exact hx

theorem alreadyProcessed_iff (job : Job) :
    alreadyProcessed job = true ↔ job.annotationOf "job-watcher/processed" = some "true" := by
  unfold alreadyProcessed Job.annotationOf processedKey
  cases job.Annotations with
  | none => simp
  | some m =>
    cases h : m.lookup "job-watcher/processed" with
    | none => simp [h]
    | some v => simp [h]

/-- C1: when the fetched job carries the annotation `job-watcher/processed`
with value `"true"`, Reconcile makes no call besides the fetch of the job: no
patch of the deployment or of the job, no fetch of the deployment; it returns
the empty result and a nil error, whatever the name, conditions and creation
timestamp of the job are.  The state it leaves is the one the fetch of the job
returned. -/
theorem reconcile_processed_is_noop {σ : Type} (w : World σ) (startupTime : Time)
    (r : JobReconciler) (s s1 : σ) (req : NamespacedName) (job : Job)
    (hget : w.GetJob s req = (.ok job, s1))
    (hmark : job.annotationOf "job-watcher/processed" = some "true") :
    (Reconcile w startupTime r s req).patches = [] ∧
    (Reconcile w startupTime r s req).calls.filter Call.isDeploymentGet = [] ∧
    (Reconcile w startupTime r s req).calls = [.getJob req none] ∧
    (Reconcile w startupTime r s req).result = {} ∧
    (Reconcile w startupTime r s req).err = none ∧
    (Reconcile w startupTime r s req).state = s1 := by
  have hp : alreadyProcessed job = true := (alreadyProcessed_iff job).2 hmark
  simp [Reconcile, hget, hp, Outcome.patches, Call.isPatch, Call.isDeploymentGet]

/-- C2: when the fetched job was created strictly before the startup time,
Reconcile issues no patch (neither on the deployment nor on the job) and
returns a nil error, whatever the conditions of the job are.  The state it
leaves is the one the fetch of the job returned. -/
theorem reconcile_before_startup_never_patches {σ : Type} (w : World σ)
    (startupTime : Time) (r : JobReconciler) (s s1 : σ) (req : NamespacedName) (job : Job)
    (hget : w.GetJob s req = (.ok job, s1))
    (hbefore : job.CreationTimestamp < startupTime) :
    (Reconcile w startupTime r s req).patches = [] ∧
    (Reconcile w startupTime r s req).result = {} ∧
    (Reconcile w startupTime r s req).err = none ∧
    (Reconcile w startupTime r s req).state = s1 := by
  simp only [Reconcile, hget, hbefore, if_true]
  split_ifs <;> simp [Outcome.patches, Call.isPatch]

/-- C3: when no condition of the fetched job has type Complete and status
True, Reconcile issues no patch and returns the empty result with a nil error,
so no requeue is requested.  The state it leaves is the one the fetch of the
job returned. -/
theorem reconcile_not_completed_is_noop {σ : Type} (w : World σ) (startupTime : Time)
    (r : JobReconciler) (s s1 : σ) (req : NamespacedName) (job : Job)
    (hget : w.GetJob s req = (.ok job, s1))
    (hnone : ∀ cond ∈ job.Conditions, ¬ (cond.type = "Complete" ∧ cond.status = "True")) :
    (Reconcile w startupTime r s req).patches = [] ∧
    (Reconcile w startupTime r s req).result = {} ∧
    (Reconcile w startupTime r s req).err = none ∧
    (Reconcile w startupTime r s req).state = s1 := by
  have hc : jobCompleted job.Conditions = false := by
    cases h : jobCompleted job.Conditions with
    | false => rfl
    | true =>
      obtain ⟨cond, hmem, hcond⟩ := (jobCompleted_iff _).1 h
      exact absurd hcond (hnone cond hmem)
  simp only [Reconcile, hget, hc]
  split_ifs <;> simp [Outcome.patches, Call.isPatch] at *

/-- C4: when the job passes every guard and the fetch of the target
deployment fails because the deployment does not exist, Reconcile returns that
not-found error (a non-nil error, so the key is requeued) and issues no patch:
the processed marker is not set.  The state it leaves is the one the failed
fetch returned. -/
theorem reconcile_missing_target_errors {σ : Type} (w : World σ) (startupTime : Time)
    (r : JobReconciler) (s s1 s2 : σ) (req : NamespacedName) (job : Job) (msg : String)
    (hget : w.GetJob s req = (.ok job, s1))
    (hunmarked : job.annotationOf "job-watcher/processed" ≠ some "true")
    (hname : r.JobNameRegex job.Name = true)
    (hdone : ∃ cond ∈ job.Conditions, cond.type = "Complete" ∧ cond.status = "True")
    (hfresh : ¬ job.CreationTimestamp < startupTime)
    (hdep : w.GetDeployment s1 ⟨r.MonitoredNamespace, r.TargetDeploymentName⟩
      = (.error (.notFound msg), s2)) :
    (Reconcile w startupTime r s req).err = some (.notFound msg) ∧
    (Reconcile w startupTime r s req).err ≠ none ∧
    (Reconcile w startupTime r s req).patches = [] ∧
    (Reconcile w startupTime r s req).calls.filter Call.isJobPatch = [] ∧
    (Reconcile w startupTime r s req).state = s2 := by
  have hp : alreadyProcessed job = false := by
    cases h : alreadyProcessed job with
    | false => rfl
    | true => exact absurd ((alreadyProcessed_iff job).1 h) hunmarked
  have hc : jobCompleted job.Conditions = true := (jobCompleted_iff _).2 hdone
  simp [Reconcile, hget, hp, hname, hc, hfresh, hdep, Outcome.patches, Call.isPatch,
    Call.isJobPatch]

/-- C1 at a concrete input: the marked job `dev-job-42`, completed and created
after startup, is left alone. -/
theorem reconcile_processed_is_noop_witness :
    (clusterWorld fixedFormat).GetJob processedCluster devJobKey
        = (.ok devJobProcessed, processedCluster) ∧
    devJobProcessed.annotationOf "job-watcher/processed" = some "true" ∧
    (Reconcile (clusterWorld fixedFormat) 0 devReconciler processedCluster devJobKey).patches
        = [] ∧
    (Reconcile (clusterWorld fixedFormat) 0 devReconciler processedCluster devJobKey).err
        = none :=
  have h := reconcile_processed_is_noop (clusterWorld fixedFormat) 0 devReconciler
    processedCluster processedCluster devJobKey devJobProcessed rfl rfl
  ⟨rfl, rfl, h.1, h.2.2.2.2.1⟩

/-- C2 at a concrete input: the completed job created at instant 10 is ignored
by a controller started at instant 20. -/
theorem reconcile_before_startup_never_patches_witness :
    (clusterWorld fixedFormat).GetJob devCluster devJobKey = (.ok devJob, devCluster) ∧
    devJob.CreationTimestamp < 20 ∧
    (Reconcile (clusterWorld fixedFormat) 20 devReconciler devCluster devJobKey).patches
        = [] ∧
    (Reconcile (clusterWorld fixedFormat) 20 devReconciler devCluster devJobKey).err
        = none :=
  have h := reconcile_before_startup_never_patches (clusterWorld fixedFormat) 20 devReconciler
    devCluster devCluster devJobKey devJob rfl (by decide)
  ⟨rfl, by decide, h.1, h.2.2.1⟩

/-- C3 at a concrete input: a job holding only Complete=False and Failed=True
conditions triggers nothing. -/
theorem reconcile_not_completed_is_noop_witness :
    (clusterWorld fixedFormat).GetJob unfinishedCluster devJobKey
        = (.ok devJobUnfinished, unfinishedCluster) ∧
    devJobUnfinished.Conditions = [⟨"Complete", "False"⟩, ⟨"Failed", "True"⟩] ∧
    (Reconcile (clusterWorld fixedFormat) 0 devReconciler unfinishedCluster devJobKey).patches
        = [] ∧
    (Reconcile (clusterWorld fixedFormat) 0 devReconciler unfinishedCluster devJobKey).err
        = none :=
  have h := reconcile_not_completed_is_noop (clusterWorld fixedFormat) 0 devReconciler
    unfinishedCluster unfinishedCluster devJobKey devJobUnfinished rfl (by decide)
  ⟨rfl, rfl, h.1, h.2.2.1⟩

/-- C4 at a concrete input: the job qualifies and the cluster holds no
deployment. -/
theorem reconcile_missing_target_errors_witness :
    (clusterWorld fixedFormat).GetDeployment clusterWithoutTarget
        ⟨"dev-namespace", "dev-deployment"⟩
      = (.error (.notFound "deployments \"dev-deployment\" not found"), clusterWithoutTarget) ∧
    (Reconcile (clusterWorld fixedFormat) 0 devReconciler clusterWithoutTarget devJobKey).err
        = some (.notFound "deployments \"dev-deployment\" not found") ∧
    (Reconcile (clusterWorld fixedFormat) 0 devReconciler clusterWithoutTarget devJobKey).patches
        = [] :=
  have h := reconcile_missing_target_errors (clusterWorld fixedFormat) 0 devReconciler
    clusterWithoutTarget clusterWithoutTarget clusterWithoutTarget devJobKey devJob
    "deployments \"dev-deployment\" not found" rfl (by decide) rfl
    ⟨⟨"Complete", "True"⟩, by decide, rfl, rfl⟩ (by decide) rfl
  ⟨rfl, h.1, h.2.2.1⟩

theorem markerGuarded_split (calls : List Call) :
    ∀ (seen : Bool), markerGuarded seen calls = true →
      ∀ (pre : List Call) (c : Call) (post : List Call), calls = pre ++ c :: post →
        c.isJobPatch = true →
          seen = true ∨ ∃ d ∈ pre, d.isSuccessfulDeploymentPatch = true := by
  induction calls with
  | nil =>
    intro seen _ pre c post h
    simp at h
  | cons a rest ih =>
    intro seen hg pre c post h hc
    cases pre with
    | nil =>
      simp only [List.nil_append, List.cons.injEq] at h
      obtain ⟨rfl, -⟩ := h
      simp only [markerGuarded, hc, if_true, Bool.and_eq_true] at hg
      exact Or.inl hg.1
    | cons b pre =>
      simp only [List.cons_append, List.cons.injEq] at h
      obtain ⟨rfl, hrest⟩ := h
      by_cases ha : a.isJobPatch = true
      · simp only [markerGuarded, ha, if_true, Bool.and_eq_true] at hg
        exact Or.inl hg.1
      · simp only [markerGuarded, ha, if_false] at hg
        rcases ih _ hg pre c post hrest hc with hs | ⟨d, hd, hdp⟩
        · simp only [Bool.or_eq_true] at hs
          rcases hs with hs | hs
          · exact Or.inl hs
          · exact Or.inr ⟨a, List.mem_cons_self _ _, hs⟩
        · exact Or.inr ⟨d, List.mem_cons_of_mem _ hd, hdp⟩

/-- The traces Reconcile can produce: it stops after the fetch of the job,
after a failed fetch of the deployment, after a failed patch of the
deployment, or after the patch of the job. -/
theorem reconcile_calls_shape {σ : Type} (w : World σ) (startupTime : Time)
    (r : JobReconciler) (s : σ) (req : NamespacedName) :
    (∃ e, (Reconcile w startupTime r s req).calls = [.getJob req e]) ∨
    (∃ k e, (Reconcile w startupTime r s req).calls
        = [.getJob req none, .getDeployment k (some e)] ∧
      (Reconcile w startupTime r s req).err = some e) ∨
    (∃ k d p e, (Reconcile w startupTime r s req).calls
        = [.getJob req none, .getDeployment k none, .patchDeployment d p (some e)] ∧
      (Reconcile w startupTime r s req).err = some e) ∨
    (∃ k d p j q e, (Reconcile w startupTime r s req).calls
        = [.getJob req none, .getDeployment k none, .patchDeployment d p none,
            .patchJob j q e] ∧
      (Reconcile w startupTime r s req).err = e) := by
  rcases hj : w.GetJob s req with ⟨err | job, s1⟩
  · exact Or.inl ⟨some err, by simp [Reconcile, hj]⟩
  by_cases h1 : alreadyProcessed job = true
  · exact Or.inl ⟨none, by simp [Reconcile, hj, h1]⟩
  by_cases h2 : r.JobNameRegex job.Name = true
  swap
  · exact Or.inl ⟨none, by simp [Reconcile, hj, h1, h2]⟩
  by_cases h3 : jobCompleted job.Conditions = true
  swap
  · exact Or.inl ⟨none, by simp [Reconcile, hj, h1, h2, h3]⟩
  by_cases h4 : job.CreationTimestamp < startupTime
  · exact Or.inl ⟨none, by simp [Reconcile, hj, h1, h2, h3, h4]⟩
  rcases hd : w.GetDeployment s1 ⟨r.MonitoredNamespace, r.TargetDeploymentName⟩
    with ⟨err | dep, s2⟩
  · exact Or.inr (Or.inl ⟨⟨r.MonitoredNamespace, r.TargetDeploymentName⟩, err,
      by simp [Reconcile, hj, h1, h2, h3, h4, hd]⟩)
  rcases hp : w.PatchDeployment s2 dep
      ⟨.MergePatchType, restartPatchData (w.FormatRFC3339 (w.Now s2))⟩ with ⟨_ | err, s3⟩
  swap
  · exact Or.inr (Or.inr (Or.inl ⟨⟨r.MonitoredNamespace, r.TargetDeploymentName⟩, dep,
      ⟨.MergePatchType, restartPatchData (w.FormatRFC3339 (w.Now s2))⟩, err,
      by simp [Reconcile, hj, h1, h2, h3, h4, hd, hp]⟩))
  rcases hq : w.PatchJob s3 job ⟨.MergePatchType, jobPatchData⟩ with ⟨_ | err, s4⟩
  · exact Or.inr (Or.inr (Or.inr ⟨⟨r.MonitoredNamespace, r.TargetDeploymentName⟩, dep,
      ⟨.MergePatchType, restartPatchData (w.FormatRFC3339 (w.Now s2))⟩, job,
      ⟨.MergePatchType, jobPatchData⟩, none,
      by simp [Reconcile, hj, h1, h2, h3, h4, hd, hp, hq]⟩))
  · exact Or.inr (Or.inr (Or.inr ⟨⟨r.MonitoredNamespace, r.TargetDeploymentName⟩, dep,
      ⟨.MergePatchType, restartPatchData (w.FormatRFC3339 (w.Now s2))⟩, job,
      ⟨.MergePatchType, jobPatchData⟩, some err,
      by simp [Reconcile, hj, h1, h2, h3, h4, hd, hp, hq]⟩))

theorem reconcile_markerGuarded {σ : Type} (w : World σ) (startupTime : Time)
    (r : JobReconciler) (s : σ) (req : NamespacedName) :
    markerGuarded false (Reconcile w startupTime r s req).calls = true := by
  rcases reconcile_calls_shape w startupTime r s req with
    ⟨e, h⟩ | ⟨k, e, h, -⟩ | ⟨k, d, p, e, h, -⟩ | ⟨k, d, p, j, q, e, h, -⟩ <;>
  simp [h, markerGuarded, Call.isJobPatch, Call.isSuccessfulDeploymentPatch]

/-- C9: in every invocation of Reconcile, a patch of the job is preceded, in
the same invocation, by a patch of the deployment that returned a nil error;
and when a patch of the deployment returns an error, Reconcile returns that
error and issues no patch of the job. -/
theorem marker_only_after_successful_restart {σ : Type} (w : World σ) (startupTime : Time)
    (r : JobReconciler) (s : σ) (req : NamespacedName) :
    (∀ (pre : List Call) (c : Call) (post : List Call),
      (Reconcile w startupTime r s req).calls = pre ++ c :: post → c.isJobPatch = true →
        ∃ d ∈ pre, d.isSuccessfulDeploymentPatch = true) ∧
    (∀ (obj : Deployment) (p : RawPatch) (e : ApiError),
      Call.patchDeployment obj p (some e) ∈ (Reconcile w startupTime r s req).calls →
        (Reconcile w startupTime r s req).err = some e ∧
        (Reconcile w startupTime r s req).calls.filter Call.isJobPatch = []) := by
  refine ⟨?_, ?_⟩
  · intro pre c post h hc
    rcases markerGuarded_split _ false (reconcile_markerGuarded w startupTime r s req)
      pre c post h hc with hs | hd
    · exact absurd hs (by decide)
    · exact hd
  · intro obj p e hmem
    rcases reconcile_calls_shape w startupTime r s req with
      ⟨e1, h⟩ | ⟨k, e1, h, herr⟩ | ⟨k, d, p1, e1, h, herr⟩ | ⟨k, d, p1, j, q, e1, h, herr⟩
    · simp [h] at hmem
    · simp [h] at hmem
    · simp only [h, List.mem_cons, List.mem_singleton, List.not_mem_nil, or_false,
        Call.patchDeployment.injEq, false_or, reduceCtorEq] at hmem
      obtain ⟨-, -, he⟩ := hmem
      simp only [Option.some.injEq] at he
      subst he
      exact ⟨herr, by simp [h, Call.isJobPatch]⟩
    · simp [h] at hmem

/-- C9 at a concrete input: the cluster rejects the body of the restart patch,
Reconcile returns that error and the job is not patched. -/
theorem marker_only_after_successful_restart_witness :
    Call.patchDeployment devDeployment ⟨.MergePatchType, restartPatchData "\""⟩
        (some (.other "invalid patch body"))
      ∈ (Reconcile (clusterWorld brokenFormat) 0 devReconciler devCluster devJobKey).calls ∧
    (Reconcile (clusterWorld brokenFormat) 0 devReconciler devCluster devJobKey).err
      = some (.other "invalid patch body") ∧
    (Reconcile (clusterWorld brokenFormat) 0 devReconciler devCluster devJobKey).calls.filter
      Call.isJobPatch = [] :=
  have hmem : Call.patchDeployment devDeployment ⟨.MergePatchType, restartPatchData "\""⟩
        (some (.other "invalid patch body"))
      ∈ (Reconcile (clusterWorld brokenFormat) 0 devReconciler devCluster devJobKey).calls :=
    List.mem_cons_of_mem _ (List.mem_cons_of_mem _ (List.mem_cons_self _ _))
  have h := (marker_only_after_successful_restart (clusterWorld brokenFormat) 0 devReconciler
    devCluster devJobKey).2 devDeployment ⟨.MergePatchType, restartPatchData "\""⟩
    (.other "invalid patch body") hmem
  ⟨hmem, h.1, h.2⟩

/-- C8, refuted as stated: the cluster holds the qualifying job and no target
deployment; the fetch of the deployment fails with a not-found error and
Reconcile returns that error instead of a nil error. -/
theorem absent_target_is_an_error :
    (Reconcile (clusterWorld fixedFormat) 0 devReconciler clusterWithoutTarget devJobKey).calls
      = [.getJob devJobKey none,
         .getDeployment ⟨"dev-namespace", "dev-deployment"⟩
           (some (.notFound "deployments \"dev-deployment\" not found"))] ∧
    (Reconcile (clusterWorld fixedFormat) 0 devReconciler clusterWithoutTarget devJobKey).err
      = some (.notFound "deployments \"dev-deployment\" not found") ∧
    (Reconcile (clusterWorld fixedFormat) 0 devReconciler clusterWithoutTarget devJobKey).err
      ≠ none :=
  ⟨rfl, rfl, by decide⟩

/-- C8, amended: when the fetch of the watched job fails with a not-found
error, Reconcile makes no further call, logs nothing, and returns the empty
result with a nil error, so no requeue happens.  The state it leaves is the one
the failed fetch returned. -/
theorem reconcile_absent_job_is_noop {σ : Type} (w : World σ) (startupTime : Time)
    (r : JobReconciler) (s s1 : σ) (req : NamespacedName) (msg : String)
    (hget : w.GetJob s req = (.error (.notFound msg), s1)) :
    (Reconcile w startupTime r s req).result = {} ∧
    (Reconcile w startupTime r s req).err = none ∧
    (Reconcile w startupTime r s req).calls = [.getJob req (some (.notFound msg))] ∧
    (Reconcile w startupTime r s req).logs = [] ∧
    (Reconcile w startupTime r s req).state = s1 := by
  simp [Reconcile, hget, IgnoreNotFound, IsNotFound]

/-- C8 amended, at a concrete input: the cluster does not hold the job. -/
theorem reconcile_absent_job_is_noop_witness :
    (clusterWorld fixedFormat).GetJob emptyCluster devJobKey
      = (.error (.notFound "jobs \"dev-job-42\" not found"), emptyCluster) ∧
    (Reconcile (clusterWorld fixedFormat) 0 devReconciler emptyCluster devJobKey).result = {} ∧
    (Reconcile (clusterWorld fixedFormat) 0 devReconciler emptyCluster devJobKey).err = none :=
  have h := reconcile_absent_job_is_noop (clusterWorld fixedFormat) 0 devReconciler
    emptyCluster emptyCluster devJobKey "jobs \"dev-job-42\" not found" rfl
  ⟨rfl, h.1, h.2.1⟩

/-- C6: the event filter installed by SetupWithManager returns true exactly
for the objects whose namespace is MonitoredNamespace and whose name matches
JobNameRegex; hence an event whose job is in another namespace, or has a name
that does not match, adds no key to the work queue of the reconciler. -/
theorem eventFilter_admits_iff (r : JobReconciler) :
    (∀ obj : Job, eventFilter r obj = true ↔
      (obj.Namespace = r.MonitoredNamespace ∧ r.JobNameRegex obj.Name = true)) ∧
    (∀ e : Event,
      (e.object.Namespace ≠ r.MonitoredNamespace ∨ r.JobNameRegex e.object.Name = false) →
        NewPredicateFuncs (eventFilter r) e = false ∧ enqueued r e = []) := by
  have hiff : ∀ obj : Job, eventFilter r obj = true ↔
      (obj.Namespace = r.MonitoredNamespace ∧ r.JobNameRegex obj.Name = true) := by
    intro obj
    simp [eventFilter]
  refine ⟨hiff, ?_⟩
  intro e he
  have hobj : NewPredicateFuncs (eventFilter r) e = eventFilter r e.object := by
    cases e <;> rfl
  have hfalse : eventFilter r e.object = false := by
    cases hf : eventFilter r e.object with
    | false => rfl
    | true =>
      obtain ⟨hns, hname⟩ := (hiff _).1 hf
      rcases he with he | he
      · exact absurd hns he
      · rw [hname] at he
        exact absurd he (by decide)
  simp [enqueued, hobj, hfalse]

/-- C6 at a concrete input: a creation event for `prod-job-1` in
`prod-namespace` is not admitted by the default configuration. -/
theorem eventFilter_admits_iff_witness :
    eventFilter devReconciler devJob = true ∧
    eventFilter devReconciler prodJob = false ∧
    enqueued devReconciler (.create prodJob) = [] :=
  ⟨by decide, by decide,
    ((eventFilter_admits_iff devReconciler).2 (.create prodJob) (Or.inl (by decide))).2⟩

/-! ## The patch bodies as JSON documents -/

theorem parseChars_plain (cs rest : List Char)
    (h : ∀ c ∈ cs, c ≠ quoteChar ∧ c ≠ backslashChar ∧ ¬ c.toNat < 32) :
    parseChars (cs ++ quoteChar :: rest) = some (cs, rest) := by
  induction cs with
  | nil => simp [parseChars]
  | cons c cs ih =>
    have hc := h c (List.mem_cons_self _ _)
    have ih2 := ih (fun d hd => h d (List.mem_cons_of_mem _ hd))
    simp [parseChars, hc.1, hc.2.1, hc.2.2, ih2]

theorem parseValue_string (n : Nat) (cs rest : List Char)
    (h : ∀ c ∈ cs, c ≠ quoteChar ∧ c ≠ backslashChar ∧ ¬ c.toNat < 32) :
    parseValue (n + 1) (quoteChar :: (cs ++ quoteChar :: rest))
      = some (.str (String.mk cs), rest) := by
  simp [parseValue, parseChars_plain cs rest h]

theorem parseValue_single_member (n : Nat) (key tail rest : List Char) (v : Json)
    (hkey : ∀ c ∈ key, c ≠ quoteChar ∧ c ≠ backslashChar ∧ ¬ c.toNat < 32)
    (htail : parseValue n tail = some (v, closeBrace :: rest)) :
    parseValue (n + 2) (openBrace :: quoteChar :: (key ++ quoteChar :: colonChar :: tail))
      = some (.obj [(String.mk key, v)], rest) := by
  have h1 : openBrace ≠ quoteChar := by decide
  have h2 : quoteChar ≠ closeBrace := by decide
  have h3 : closeBrace ≠ commaChar := by decide
  simp [parseValue, parseMembers, h1, h2, h3, parseChars_plain key _ hkey, htail]

theorem restartPatchData_chars (ts : String) :
    (restartPatchData ts).data =
      openBrace :: quoteChar :: ("spec".data ++ quoteChar :: colonChar ::
      openBrace :: quoteChar :: ("template".data ++ quoteChar :: colonChar ::
      openBrace :: quoteChar :: ("metadata".data ++ quoteChar :: colonChar ::
      openBrace :: quoteChar :: ("annotations".data ++ quoteChar :: colonChar ::
      openBrace :: quoteChar :: ("kubectl.kubernetes.io/restartedAt".data ++
        quoteChar :: colonChar ::
      quoteChar :: (ts.data ++ quoteChar ::
        [closeBrace, closeBrace, closeBrace, closeBrace, closeBrace])))))) := by
  rfl

theorem decode_restartPatchData (ts : String) (hts : jsonPlain ts) :
    decode (restartPatchData ts) = some (restartPatchDoc ts) := by
  have hlen : 11 ≤ (restartPatchData ts).length := by
    show 11 ≤ (restartPatchData ts).data.length
    rw [restartPatchData_chars]
    simp only [List.length_cons, List.length_append]
    omega
  obtain ⟨n, hn⟩ : ∃ n, (restartPatchData ts).length = n + 11 := ⟨_, (Nat.sub_add_cancel hlen).symm⟩
  have h5 := parseValue_string n ts.data [closeBrace, closeBrace, closeBrace, closeBrace, closeBrace]
    hts
  have h4 := parseValue_single_member (n + 1) "kubectl.kubernetes.io/restartedAt".data _ _ _
    (by decide) h5
  have h3 := parseValue_single_member (n + 3) "annotations".data _ _ _ (by decide) h4
  have h2 := parseValue_single_member (n + 5) "metadata".data _ _ _ (by decide) h3
  have h1 := parseValue_single_member (n + 7) "template".data _ _ _ (by decide) h2
  have h0 := parseValue_single_member (n + 9) "spec".data _ _ _ (by decide) h1
  unfold decode
  rw [hn, restartPatchData_chars, h0]
  rfl

theorem decode_jobPatchData : decode jobPatchData = some jobPatchDoc := by
  rfl

/-! ## Reconciling over the explicit cluster state -/

theorem Cluster.getJob_ok (c c1 : Cluster) (key : NamespacedName) (j : Job)
    (h : Cluster.getJob c key = (.ok j, c1)) :
    c1 = c ∧ c.jobs.find? (fun x => decide (x.key = key)) = some j := by
  unfold Cluster.getJob at h
  cases hf : c.jobs.find? (fun x => decide (x.key = key)) with
  | none => simp [hf] at h
  | some x =>
    simp only [hf, Prod.mk.injEq, Except.ok.injEq] at h
    exact ⟨h.2.symm, by rw [h.1]⟩

theorem Cluster.getDeployment_state (c c1 : Cluster) (key : NamespacedName)
    (res : Except ApiError Deployment) (h : Cluster.getDeployment c key = (res, c1)) :
    c1 = c := by
  unfold Cluster.getDeployment at h
  cases hf : c.deployments.find? (fun x => decide (x.key = key)) with
  | none =>
    simp only [hf, Prod.mk.injEq] at h
    exact h.2.symm
  | some x =>
    simp only [hf, Prod.mk.injEq] at h
    exact h.2.symm

theorem Cluster.patchDeployment_jobs (c : Cluster) (obj : Deployment) (p : RawPatch) :
    (Cluster.patchDeployment c obj p).2.jobs = c.jobs := by
  unfold Cluster.patchDeployment
  by_cases ht : p.patchType ≠ .MergePatchType
  · rw [if_pos ht]
  · rw [if_neg ht]
    cases hdoc : decode p.data with
    | none => rfl
    | some doc =>
      by_cases hany : (c.deployments.any fun d => decide (d.key = obj.key)) = true
      · simp only [hany, if_true]
      · simp only [hany, Bool.false_eq_true, if_false]

theorem Cluster.patchJob_marker (c c1 : Cluster) (obj : Job)
    (h : Cluster.patchJob c obj ⟨.MergePatchType, jobPatchData⟩ = (none, c1)) :
    c1.jobs = c.jobs.map (fun j => if j.key = obj.key then applyJobPatch jobPatchDoc j else j) := by
  unfold Cluster.patchJob at h
  have hd : decode jobPatchData = some jobPatchDoc := rfl
  simp only [ne_eq, not_true_eq_false, if_false, hd] at h
  by_cases hany : (c.jobs.any fun j => decide (j.key = obj.key)) = true
  · simp only [hany, if_true, Prod.mk.injEq, true_and] at h
    rw [← h]
  · simp [hany] at h

theorem applyJobPatch_key (doc : Json) (j : Job) : (applyJobPatch doc j).key = j.key := rfl

theorem find_patched (jobs : List Job) (key : NamespacedName) (g : Job → Job)
    (hg : ∀ j, (g j).key = j.key) :
    (jobs.map (fun j => if j.key = key then g j else j)).find? (fun x => decide (x.key = key))
      = (jobs.find? (fun x => decide (x.key = key))).map g := by
  induction jobs with
  | nil => rfl
  | cons j rest ih =>
    by_cases hk : j.key = key
    · have hk2 : (g j).key = key := by rw [hg, hk]
      simp [List.find?, hk, hk2]
    · simp [List.find?, hk, ih]

theorem alreadyProcessed_applyJobPatch (j : Job) :
    alreadyProcessed (applyJobPatch jobPatchDoc j) = true := by
  have h : (applyJobPatch jobPatchDoc j).Annotations
      = StringMap.set j.Annotations processedKey "true" := rfl
  simp [alreadyProcessed, h, StringMap.set, List.lookup]

/-- C5: when the job passes every guard, the fetch of the target deployment
succeeds and both patch calls return a nil error, Reconcile makes four calls:
the fetch of the job, the fetch of the deployment under the key
(MonitoredNamespace, TargetDeploymentName), one merge patch on the deployment
so fetched, then one merge patch on the fetched job; it returns the empty
result with a nil error.  The body of the first patch is the format string of
line 79 with the current time, formatted by the RFC3339 formatter, in place of
`%s`; as the formatted time holds no quote, backslash or control character,
that body decodes to the document that holds only
`spec.template.metadata.annotations["kubectl.kubernetes.io/restartedAt"]`, set
to the formatted time.  The body of the second patch decodes to the document
that holds only `metadata.annotations["job-watcher/processed"]`, set to
`"true"`.  Both patches are sent to the client: the state Reconcile leaves is
the state the client returns from the patch of the job, itself issued on the
state the client returned from the patch of the deployment. -/
theorem reconcile_restarts_then_marks {σ : Type} (w : World σ) (startupTime : Time)
    (r : JobReconciler) (s s1 s2 s3 s4 : σ) (req : NamespacedName) (job : Job)
    (dep : Deployment)
    (hget : w.GetJob s req = (.ok job, s1))
    (hunmarked : job.annotationOf "job-watcher/processed" ≠ some "true")
    (hname : r.JobNameRegex job.Name = true)
    (hdone : ∃ cond ∈ job.Conditions, cond.type = "Complete" ∧ cond.status = "True")
    (hfresh : ¬ job.CreationTimestamp < startupTime)
    (hdep : w.GetDeployment s1 ⟨r.MonitoredNamespace, r.TargetDeploymentName⟩ = (.ok dep, s2))
    (hrestart : w.PatchDeployment s2 dep
      ⟨.MergePatchType, restartPatchData (w.FormatRFC3339 (w.Now s2))⟩ = (none, s3))
    (hmark : w.PatchJob s3 job ⟨.MergePatchType, jobPatchData⟩ = (none, s4)) :
    (Reconcile w startupTime r s req).calls
      = [.getJob req none,
         .getDeployment ⟨r.MonitoredNamespace, r.TargetDeploymentName⟩ none,
         .patchDeployment dep
           ⟨.MergePatchType, restartPatchData (w.FormatRFC3339 (w.Now s2))⟩ none,
         .patchJob job ⟨.MergePatchType, jobPatchData⟩ none] ∧
    (Reconcile w startupTime r s req).patches
      = [.patchDeployment dep
           ⟨.MergePatchType, restartPatchData (w.FormatRFC3339 (w.Now s2))⟩ none,
         .patchJob job ⟨.MergePatchType, jobPatchData⟩ none] ∧
    (jsonPlain (w.FormatRFC3339 (w.Now s2)) →
      decode (restartPatchData (w.FormatRFC3339 (w.Now s2)))
        = some (.obj [("spec", .obj [("template", .obj [("metadata", .obj [("annotations",
            .obj [("kubectl.kubernetes.io/restartedAt",
              .str (w.FormatRFC3339 (w.Now s2)))])])])])])) ∧
    decode jobPatchData
      = some (.obj [("metadata", .obj [("annotations",
          .obj [("job-watcher/processed", .str "true")])])]) ∧
    (Reconcile w startupTime r s req).result = {} ∧
    (Reconcile w startupTime r s req).err = none ∧
    (Reconcile w startupTime r s req).state = s4 := by
  have hp : alreadyProcessed job = false := by
    cases h : alreadyProcessed job with
    | false => rfl
    | true => exact absurd ((alreadyProcessed_iff job).1 h) hunmarked
  have hc : jobCompleted job.Conditions = true := (jobCompleted_iff _).2 hdone
  refine ⟨?_, ?_, decode_restartPatchData _, decode_jobPatchData, ?_, ?_, ?_⟩ <;>
  simp [Reconcile, hget, hp, hname, hc, hfresh, hdep, hrestart, hmark, Outcome.patches,
    Call.isPatch]

/-- C5 at a concrete input: scenario 1 of the specification, the job
`dev-job-42` completed after startup in a cluster that holds `dev-deployment`. -/
theorem reconcile_restarts_then_marks_witness :
    (Reconcile (clusterWorld fixedFormat) 0 devReconciler devCluster devJobKey).patches
      = [.patchDeployment devDeployment
           ⟨.MergePatchType, restartPatchData "2024-05-01T12:00:00Z"⟩ none,
         .patchJob devJob ⟨.MergePatchType, jobPatchData⟩ none] ∧
    decode (restartPatchData "2024-05-01T12:00:00Z")
      = some (.obj [("spec", .obj [("template", .obj [("metadata", .obj [("annotations",
          .obj [("kubectl.kubernetes.io/restartedAt", .str "2024-05-01T12:00:00Z")])])])])]) ∧
    (Reconcile (clusterWorld fixedFormat) 0 devReconciler devCluster devJobKey).err = none ∧
    (Reconcile (clusterWorld fixedFormat) 0 devReconciler devCluster devJobKey).state
      = restartedCluster :=
  have h := reconcile_restarts_then_marks (clusterWorld fixedFormat) 0 devReconciler
    devCluster devCluster devCluster
    (Cluster.patchDeployment devCluster devDeployment
      ⟨.MergePatchType, restartPatchData "2024-05-01T12:00:00Z"⟩).2
    (Cluster.patchJob (Cluster.patchDeployment devCluster devDeployment
      ⟨.MergePatchType, restartPatchData "2024-05-01T12:00:00Z"⟩).2 devJob
      ⟨.MergePatchType, jobPatchData⟩).2
    devJobKey devJob devDeployment rfl (by decide) rfl
    ⟨⟨"Complete", "True"⟩, by decide, rfl, rfl⟩ (by decide) rfl rfl rfl
  ⟨h.2.1, h.2.2.1 (by unfold jsonPlain; decide), h.2.2.2.2.2.1, h.2.2.2.2.2.2.trans rfl⟩

/-- C7: over the explicit cluster state, when a first Reconcile of a key ends
with a nil error after a restart patch and a marker patch that both returned
nil, a second Reconcile of the same key, on any state that holds the jobs the
first one left, issues no patch and returns the empty result with a nil error,
and leaves the state, hence the target deployment, as it found it. -/
theorem reconcile_twice_restarts_once (format : Time → String) (startupTime : Time)
    (r : JobReconciler) (c : Cluster) (req : NamespacedName)
    (hfirst : ∃ dep p job q, (Reconcile (clusterWorld format) startupTime r c req).patches
      = [.patchDeployment dep p none, .patchJob job q none])
    (hnil : (Reconcile (clusterWorld format) startupTime r c req).err = none)
    (c2 : Cluster)
    (hjobs : c2.jobs = (Reconcile (clusterWorld format) startupTime r c req).state.jobs) :
    (Reconcile (clusterWorld format) startupTime r c2 req).patches = [] ∧
    (Reconcile (clusterWorld format) startupTime r c2 req).result = {} ∧
    (Reconcile (clusterWorld format) startupTime r c2 req).err = none ∧
    (Reconcile (clusterWorld format) startupTime r c2 req).state = c2 := by
  obtain ⟨dep0, p0, job0, q0, hfirst⟩ := hfirst
  rcases hj : (clusterWorld format).GetJob c req with ⟨err | job, s1⟩
  · simp [Reconcile, hj, Outcome.patches, Call.isPatch] at hfirst
  by_cases h1 : alreadyProcessed job = true
  · simp [Reconcile, hj, h1, Outcome.patches, Call.isPatch] at hfirst
  by_cases h2 : r.JobNameRegex job.Name = true
  swap
  · simp [Reconcile, hj, h1, h2, Outcome.patches, Call.isPatch] at hfirst
  by_cases h3 : jobCompleted job.Conditions = true
  swap
  · simp [Reconcile, hj, h1, h2, h3, Outcome.patches, Call.isPatch] at hfirst
  by_cases h4 : job.CreationTimestamp < startupTime
  · simp [Reconcile, hj, h1, h2, h3, h4, Outcome.patches, Call.isPatch] at hfirst
  rcases hd : (clusterWorld format).GetDeployment s1
      ⟨r.MonitoredNamespace, r.TargetDeploymentName⟩ with ⟨err | dep, s2⟩
  · simp [Reconcile, hj, h1, h2, h3, h4, hd, Outcome.patches, Call.isPatch] at hfirst
  rcases hp : (clusterWorld format).PatchDeployment s2 dep
      ⟨.MergePatchType,
        restartPatchData ((clusterWorld format).FormatRFC3339 ((clusterWorld format).Now s2))⟩
    with ⟨_ | err, s3⟩
  swap
  · simp [Reconcile, hj, h1, h2, h3, h4, hd, hp, Outcome.patches, Call.isPatch] at hfirst
  rcases hq : (clusterWorld format).PatchJob s3 job ⟨.MergePatchType, jobPatchData⟩
    with ⟨_ | err, s4⟩
  swap
  · simp [Reconcile, hj, h1, h2, h3, h4, hd, hp, hq] at hnil
  have hstate : (Reconcile (clusterWorld format) startupTime r c req).state = s4 := by
    simp [Reconcile, hj, h1, h2, h3, h4, hd, hp, hq]
  obtain ⟨hs1, hfind⟩ := Cluster.getJob_ok c s1 req job hj
  have hs2 : s2 = s1 := Cluster.getDeployment_state s1 s2 _ _ hd
  have hs3 : s3.jobs = s2.jobs := by
    have h := Cluster.patchDeployment_jobs s2 dep
      ⟨.MergePatchType,
        restartPatchData ((clusterWorld format).FormatRFC3339 ((clusterWorld format).Now s2))⟩
    have hp2 : Cluster.patchDeployment s2 dep
        ⟨.MergePatchType,
          restartPatchData ((clusterWorld format).FormatRFC3339 ((clusterWorld format).Now s2))⟩
        = (none, s3) := hp
    rw [hp2] at h
    exact h
  have hs4 := Cluster.patchJob_marker s3 s4 job hq
  have hkey : job.key = req := by
    have h := List.find?_some hfind
    exact of_decide_eq_true h
  have hget2 : (clusterWorld format).GetJob c2 req
      = (.ok (applyJobPatch jobPatchDoc job), c2) := by
    show Cluster.getJob c2 req = _
    unfold Cluster.getJob
    rw [hjobs, hstate, hs4, hs3, hs2, hs1, hkey,
      find_patched c.jobs req (applyJobPatch jobPatchDoc) (applyJobPatch_key jobPatchDoc), hfind]
    rfl
  simp [Reconcile, hget2, alreadyProcessed_applyJobPatch, Outcome.patches, Call.isPatch]

/-- C7 at a concrete input: scenarios 1 and 2 of the specification, the job
`dev-job-42` reconciled a second time on the state the first run left. -/
theorem reconcile_twice_restarts_once_witness :
    (Reconcile (clusterWorld fixedFormat) 0 devReconciler devCluster devJobKey).patches
      = [.patchDeployment devDeployment
           ⟨.MergePatchType, restartPatchData "2024-05-01T12:00:00Z"⟩ none,
         .patchJob devJob ⟨.MergePatchType, jobPatchData⟩ none] ∧
    (Reconcile (clusterWorld fixedFormat) 0 devReconciler
      (Reconcile (clusterWorld fixedFormat) 0 devReconciler devCluster devJobKey).state
      devJobKey).patches = [] ∧
    (Reconcile (clusterWorld fixedFormat) 0 devReconciler
      (Reconcile (clusterWorld fixedFormat) 0 devReconciler devCluster devJobKey).state
      devJobKey).err = none :=
  have h := reconcile_twice_restarts_once fixedFormat 0 devReconciler devCluster devJobKey
    ⟨devDeployment, _, devJob, _, rfl⟩ rfl
    (Reconcile (clusterWorld fixedFormat) 0 devReconciler devCluster devJobKey).state rfl
  ⟨rfl, h.1, h.2.2.1⟩

end JobWatcher

/-! ## Properties of the precondition checker -/

namespace CheckPodPvc

theorem volumesUseClaim_iff (pvcName : String) (volumes : List Volume) :
    volumesUseClaim pvcName volumes = true ↔
      ∃ volume ∈ volumes, ∃ source,
        volume.PersistentVolumeClaim = some source ∧ source.ClaimName = pvcName := by
  induction volumes with
  | nil => simp [volumesUseClaim]
  | cons v vs ih =>
    cases hv : v.PersistentVolumeClaim with
    | none => simp [volumesUseClaim, hv, ih]
    | some source =>
      by_cases hc : source.ClaimName = pvcName
      · simp [volumesUseClaim, hv, hc]
      · simp [volumesUseClaim, hv, hc, ih]

theorem scanPods_found_iff (pvcName currentPodName : String) (pods : List Pod) :
    ∀ (found : Bool) (out : List String),
      (scanPods pvcName currentPodName pods found out).1 = true ↔
        (found = true ∨ ∃ pod ∈ pods, pod.Name ≠ currentPodName ∧
          (pod.Phase = "Running" ∨ pod.Phase = "Pending") ∧
          volumesUseClaim pvcName pod.Volumes = true) := by
  induction pods with
  | nil =>
    intro found out
    simp [scanPods]
  | cons pod rest ih =>
    intro found out
    by_cases h1 : pod.Name = currentPodName
    · simp [scanPods, h1, ih]
    · by_cases h2 : pod.Phase ≠ "Running" ∧ pod.Phase ≠ "Pending"
      · have h2a := h2.1
        have h2b := h2.2
        simp [scanPods, h1, h2a, h2b, ih]
      · have h2c : pod.Phase = "Running" ∨ pod.Phase = "Pending" := by
          by_contra hn
          exact h2 ⟨fun h => hn (Or.inl h), fun h => hn (Or.inr h)⟩
        by_cases h3 : volumesUseClaim pvcName pod.Volumes = true
        · simp only [scanPods, h1, h2, h3, if_true, if_false, ih]
          constructor
          · intro _
            exact Or.inr ⟨pod, List.mem_cons_self _ _, h1, h2c, h3⟩
          · intro _
            exact Or.inl trivial
        · simp only [scanPods, h1, h2, h3, if_false, ih, Bool.false_eq_true]
          constructor
          · rintro (hf | ⟨q, hq, hq1, hq2, hq3⟩)
            · exact Or.inl hf
            · exact Or.inr ⟨q, List.mem_cons_of_mem _ hq, hq1, hq2, hq3⟩
          · rintro (hf | ⟨q, hq, hq1, hq2, hq3⟩)
            · exact Or.inl hf
            · rcases List.mem_cons.1 hq with rfl | hq
              · exact absurd hq3 h3
              · exact Or.inr ⟨q, hq, hq1, hq2, hq3⟩

/-- C10: when flag parsing and client construction succeed, the namespace and
the claim exist and the pod list is obtained, the exit code of the checker is
1 exactly when the list holds a pod whose name differs from the current pod
name, whose phase is Running or Pending, and which has a volume backed by a
persistent volume claim named as the checked claim; otherwise it is 0. -/
theorem main_exit_code (env : Env) (kubeconfig : String) (pods : List Pod)
    (hflags : env.ParseFlags (kubeconfigDefault env) = .ok kubeconfig)
    (hconfig : env.BuildConfigFromFlags "" kubeconfig = none)
    (hclient : env.NewForConfig = none)
    (hns : env.GetNamespace (checkedNamespace env) = none)
    (hpvc : env.GetPersistentVolumeClaim (checkedNamespace env) (checkedClaim env) = none)
    (hpods : env.ListPods (checkedNamespace env) = .ok pods) :
    ((main env).termination.exitCode = 1 ↔
      ∃ pod ∈ pods, pod.Name ≠ currentPod env ∧
        (pod.Phase = "Running" ∨ pod.Phase = "Pending") ∧
        ∃ volume ∈ pod.Volumes, ∃ source,
          volume.PersistentVolumeClaim = some source ∧
          source.ClaimName = checkedClaim env) ∧
    ((¬ ∃ pod ∈ pods, pod.Name ≠ currentPod env ∧
        (pod.Phase = "Running" ∨ pod.Phase = "Pending") ∧
        ∃ volume ∈ pod.Volumes, ∃ source,
          volume.PersistentVolumeClaim = some source ∧
          source.ClaimName = checkedClaim env) →
      (main env).termination.exitCode = 0) := by
  unfold checkedNamespace at hns hpvc hpods
  unfold checkedClaim at hpvc
  have hscan := scanPods_found_iff (checkedClaim env) (currentPod env) pods false
    ["Checking for pods actively using " ++ checkedClaim env ++ ", excluding current pod "
      ++ currentPod env ++ ":\n"]
  simp only [volumesUseClaim_iff, false_or, Bool.false_eq_true] at hscan
  unfold checkedClaim currentPod at hscan ⊢
  rw [← hscan]
  simp only [main, hflags, hconfig, hclient, hns, hpvc, hpods]
  rcases hs : scanPods (getenvOr env "PVC_NAME" "default-app-pvc")
      (env.Getenv "CURRENT_POD_NAME") pods false
      ["Checking for pods actively using " ++ getenvOr env "PVC_NAME" "default-app-pvc"
        ++ ", excluding current pod " ++ env.Getenv "CURRENT_POD_NAME" ++ ":\n"]
    with ⟨_ | _, out⟩ <;> simp [Termination.exitCode]

/-- C10 at a concrete input: of a finished pod, the caller's own pod and a
running pod that all mount the claim, only the running pod counts, and the
checker exits with code 1. -/
theorem main_exit_code_witness :
    (main (envWith "job-1" [finishedPod, callerPod, mountingPod])).termination.exitCode = 1 ∧
    (main (envWith "job-1" [finishedPod, callerPod])).termination.exitCode = 0 :=
  ⟨((main_exit_code (envWith "job-1" [finishedPod, callerPod, mountingPod])
      "/root/.kube/config" [finishedPod, callerPod, mountingPod] rfl rfl rfl rfl rfl rfl).1).2
      ⟨mountingPod, by simp, by decide, Or.inl rfl,
        ⟨"data", some ⟨"default-app-pvc"⟩⟩, by simp [mountingPod], ⟨"default-app-pvc"⟩, rfl, rfl⟩,
    by decide⟩

end CheckPodPvc
